import Mathlib

/-!
Verification development for the WebScraperService of this repository.

The service (WebScraperService.js) wraps an HTTP client and an HTML query
library (cheerio).  The extraction functions are pure: they load the HTML
into a queryable tree and then answer CSS-selector queries.  We embed the
parsed tree abstractly: a document is a function from selector strings to
the ordered node-set (list of elements) the query engine returns for that
selector, and each element carries its attribute map, its text content and
its inner markup.  The extraction functions are translated line by line
from the source; JavaScript truthiness (`x || y`, `if (x)`) is made
explicit through `truthy`/`jsOr`, and `undefined`/`null` results are
represented with `Option`/`JSValue`.
-/

namespace WebScraper

/-- Whitespace trim of a character list, as the JavaScript
`String.prototype.trim` used throughout the source. -/
def trimChars (s : List Char) : List Char :=
  (((s.dropWhile Char.isWhitespace).reverse).dropWhile Char.isWhitespace).reverse

/-- JavaScript `s.trim()`. -/
def jsTrim (s : String) : String := String.mk (trimChars s.data)

/-- Boolean prefix test on character lists (JavaScript `s.startsWith(p)`
with pattern `p` given first). -/
def leadsWith : List Char → List Char → Bool
  | [], _ => true
  | _ :: _, [] => false
  | a :: as, b :: bs => (a == b) && leadsWith as bs

/-- JavaScript truthiness of a string-or-undefined value: `undefined` and
the empty string are falsy, every other string is truthy. -/
def truthy : Option String → Bool
  | none => false
  | some s => s != ""

/-- JavaScript `a || b` on string-or-undefined values: yields `a` when `a`
is truthy, otherwise `b` (which may itself be empty or undefined). -/
def jsOr (a b : Option String) : Option String :=
  if truthy a then a else b

/-- JavaScript `a || ''`. -/
def jsOrEmpty (a : Option String) : String :=
  if truthy a then a.getD "" else ""

/-- JavaScript `a || null`: a falsy attribute value (absent or empty)
becomes `null`, modelled as `none`. -/
def jsOrNull (a : Option String) : Option String :=
  if truthy a then a else none

/-- Characters of a URL up to (excluding) the first slash. -/
def upToSlash : List Char → List Char
  | [] => []
  | c :: rest => if c == '/' then [] else c :: upToSlash rest

/-- Origin part (scheme, separator and host) of an absolute URL, as a
character list: everything up to the first slash after the first scheme
separator.  When the argument has no scheme separator it is returned
unchanged. -/
def originChars : List Char → List Char
  | [] => []
  | c :: rest =>
    if leadsWith [':', '/', '/'] (c :: rest) then
      ':' :: '/' :: '/' :: upToSlash (rest.drop 2)
    else c :: originChars rest

/-- Models the platform URL constructor `new URL(path, base).href` in the
only situation the source uses it: `path` starts with a slash
(root-relative) and `base` is an absolute URL, so the result is the origin
of `base` followed by `path`.  Dot-segment normalisation and rejection of
malformed bases are outside the scope of the claims and are not
modelled. -/
def resolveUrl (path base : String) : String :=
  String.mk (originChars base.data) ++ path

/-- An element of the parsed HTML tree, as cheerio exposes it to the
extraction code: its attribute map (`el.attribs`), the text content that
the query method `.text()` returns for it, and the inner markup that
`.html()` renders from its children. -/
structure Element where
  attribs : List (String × String)
  textContent : String
  innerHtml : String
  deriving DecidableEq

/-- Abstract parsed document: the function taking a CSS selector string to
the node-set (in document order) the query engine returns for it, that is
the behaviour of `$(selector)` after `cheerio.load(html)`. -/
def Doc : Type := String → List Element

/-- Attribute lookup on one element (`$(element).attr(name)`): the value
when the attribute is present, `undefined` (`none`) otherwise. -/
def getAttr (el : Element) (n : String) : Option String :=
  (el.attribs.find? (fun p => p.1 == n)).map (fun p => p.2)

/-- Text of a node-set: the cheerio method `.text()` concatenates the text content
of every matched element. -/
def textOfSet (els : List Element) : String :=
  String.join (els.map Element.textContent)

/-- A JavaScript value stored in the structured-data result object. -/
inductive JSValue where
  | vstr : String → JSValue
  | vnull : JSValue
  | vundef : JSValue
  | vlist : List String → JSValue
  | vattrs : List (String × String) → JSValue
  deriving DecidableEq

/-- Result of the cheerio method `.html()` on a node-set: `null` when the set is
empty, otherwise the inner markup of the first element. -/
def htmlOfSet : List Element → JSValue
  | [] => JSValue.vnull
  | el :: _ => JSValue.vstr el.innerHtml

/-- Result of the cheerio method `.attr(name)` on a node-set: `undefined` on an
empty set; with a falsy name (absent or empty) the whole attribute object
of the first element; otherwise the attribute value of that element, or
`undefined` when the attribute is absent. -/
def attrOfSet (els : List Element) (name : Option String) : JSValue :=
  match els with
  | [] => JSValue.vundef
  | el :: _ =>
    if truthy name then
      match getAttr el (name.getD "") with
      | some v => JSValue.vstr v
      | none => JSValue.vundef
    else JSValue.vattrs el.attribs

/-- Image descriptor produced by `extractImages`. -/
structure ImageRecord where
  url : String
  alt : String
  width : Option String
  height : Option String
  deriving DecidableEq

/-- Link descriptor produced by `extractLinks`. -/
structure LinkRecord where
  url : String
  text : String
  deriving DecidableEq

/-- The string-selector branch of `WebScraperService.extractText`:
`$(selectors).text().trim()`. -/
def extractText (doc : Doc) (selector : String) : String :=
  jsTrim (textOfSet (doc selector))

/-- The object-selector branch of `WebScraperService.extractText`: one
entry per input key, each the trimmed text of the selector of that key. -/
def extractTextMap (doc : Doc) (selectors : List (String × String)) : List (String × String) :=
  selectors.map (fun p => (p.1, jsTrim (textOfSet (doc p.2))))

/-- Body of the `$(selector).each` callback in
`WebScraperService.extractImages`: reads `src || data-src`, resolves a
root-relative truthy URL against a truthy base URL, and pushes a record
exactly when the final URL is truthy. -/
def imageEach (baseUrl : String) (el : Element) : Option ImageRecord :=
  let raw := jsOr (getAttr el "src") (getAttr el "data-src")
  let resolved : Option String :=
    match raw with
    | some u =>
      if (u != "") && leadsWith ['/'] u.data && (baseUrl != "") then
        some (resolveUrl u baseUrl)
      else some u
    | none => none
  match resolved with
  | some u =>
    if u != "" then
      some { url := u
           , alt := jsOrEmpty (getAttr el "alt")
           , width := jsOrNull (getAttr el "width")
           , height := jsOrNull (getAttr el "height") }
    else none
  | none => none

/-- `WebScraperService.extractImages`: one optional record per matched
element, in document order. -/
def extractImages (doc : Doc) (selector : String) (baseUrl : String) : List ImageRecord :=
  (doc selector).filterMap (imageEach baseUrl)

/-- Body of the `$(selector).each` callback in
`WebScraperService.extractLinks`. -/
def linkEach (baseUrl : String) (el : Element) : Option LinkRecord :=
  let href := getAttr el "href"
  let resolved : Option String :=
    match href with
    | some u =>
      if (u != "") && leadsWith ['/'] u.data && (baseUrl != "") then
        some (resolveUrl u baseUrl)
      else some u
    | none => none
  match resolved with
  | some u =>
    if u != "" then some { url := u, text := jsTrim el.textContent }
    else none
  | none => none

/-- `WebScraperService.extractLinks`: one optional record per matched
element, in document order. -/
def extractLinks (doc : Doc) (selector : String) (baseUrl : String) : List LinkRecord :=
  (doc selector).filterMap (linkEach baseUrl)

/-- A field specification as the JavaScript mapping object stores it:
either a bare selector string, or an object with a `selector` field, an
optional `type` tag and an optional `attr` name. -/
inductive FieldSpec where
  | bare : String → FieldSpec
  | obj : String → Option String → Option String → FieldSpec
  deriving DecidableEq

/-- Selector of a field specification. -/
def FieldSpec.selectorOf : FieldSpec → String
  | .bare s => s
  | .obj s _ _ => s

/-- The `switch (selector.type)` of `extractStructuredData`, for a truthy
type tag `t`: the four recognised modes, with every other tag falling into
the `default` branch, which extracts trimmed text. -/
def modeValue (doc : Doc) (sel : String) (t : String) (attrName : Option String) : JSValue :=
  if t == "text" then JSValue.vstr (jsTrim (textOfSet (doc sel)))
  else if t == "html" then htmlOfSet (doc sel)
  else if t == "attr" then attrOfSet (doc sel) attrName
  else if t == "list" then JSValue.vlist ((doc sel).map (fun el => jsTrim el.textContent))
  else JSValue.vstr (jsTrim (textOfSet (doc sel)))

/-- Value assigned for one mapping field by `extractStructuredData`:
a bare string is queried as trimmed text; an object is handled only when
the object branch guard finds a truthy `type` tag,
otherwise no assignment happens at all and the result is `none`. -/
def fieldValue (doc : Doc) : FieldSpec → Option JSValue
  | .bare s => some (JSValue.vstr (jsTrim (textOfSet (doc s))))
  | .obj sel ty attrName =>
    if truthy ty then some (modeValue doc sel (ty.getD "") attrName)
    else none

/-- `WebScraperService.extractStructuredData`: iterates the own keys of
the mapping in order and assigns `result[key]` whenever one of the two
branches fires. -/
def extractStructuredData (doc : Doc) (mapping : List (String × FieldSpec)) :
    List (String × JSValue) :=
  mapping.filterMap (fun p => (fieldValue doc p.2).map (fun v => (p.1, v)))

/-- Basic-auth credentials as stored on the axios client
(`client.defaults.auth`). -/
structure AuthCreds where
  username : String
  password : String
  deriving DecidableEq

/-- Lookup view of a JavaScript header object: name to optional value. -/
def Headers : Type := String → Option String

/-- The mutable configuration the service keeps on its axios client:
default headers, request timeout and optional auth. -/
structure ClientState where
  headers : Headers
  timeout : Nat
  auth : Option AuthCreds

/-- Lookup semantics of the object spread `{...old, ...new}` on header
objects: a name present in `new` takes its value from `new`, every other
name keeps its value from `old`. -/
def mergeHeaders (old new : Headers) : Headers :=
  fun k => match new k with
    | some v => some v
    | none => old k

/-- The default User-Agent the constructor installs. -/
def defaultUserAgent : String :=
  "Mozilla/5.0 (iPhone; CPU iPhone OS 14_0 like Mac OS X) AppleWebKit/605.1.15 (KHTML, like Gecko) Mobile/15E148"

/-- The `WebScraperService` constructor: `timeout: options.timeout || 10000`,
headers are the default User-Agent spread-merged with `options.headers`,
and auth is stored only when provided. -/
def createService (timeoutOpt : Option Nat) (headersOpt : Headers)
    (authOpt : Option AuthCreds) : ClientState :=
  { headers := mergeHeaders
      (fun k => if k == "User-Agent" then some defaultUserAgent else none) headersOpt
  , timeout := match timeoutOpt with
      | some t => if t != 0 then t else 10000
      | none => 10000
  , auth := authOpt }

/-- `WebScraperService.setAuth`. -/
def setAuth (st : ClientState) (a : AuthCreds) : ClientState :=
  { st with auth := some a }

/-- `WebScraperService.setHeaders`: spread-merges the argument into the
existing default headers. -/
def setHeaders (st : ClientState) (hs : Headers) : ClientState :=
  { st with headers := mergeHeaders st.headers hs }

/-- `WebScraperService.setCookies`: delegates to `setHeaders` with a
one-entry Cookie header object. -/
def setCookies (st : ClientState) (c : String) : ClientState :=
  setHeaders st (fun k => if k == "Cookie" then some c else none)

/-! Spec-side descriptions.  These follow the wording of the specification
(amended where the code forced an amendment) and are proved equal to the
code-side functions above. -/

/-- Attribute value of an element when it is present and non-empty,
nothing otherwise. -/
def attrNonEmpty (el : Element) (n : String) : Option String :=
  match getAttr el n with
  | some v => if v = "" then none else some v
  | none => none

/-- Image URL as the spec describes it: the `src` attribute, falling back
to `data-src` when `src` is absent or empty; nothing when both are absent
or empty. -/
def imageUrlSpec (el : Element) : Option String :=
  match attrNonEmpty el "src" with
  | some u => some u
  | none => attrNonEmpty el "data-src"

/-- URL absolutisation as the spec describes it: a URL is resolved against
the base exactly when the base is non-empty and the URL is root-relative;
otherwise it passes through unchanged. -/
def absolutize (baseUrl u : String) : String :=
  if baseUrl = "" then u
  else if leadsWith ['/'] u.data then resolveUrl u baseUrl
  else u

/-- Spec-side description of `extractImages`: per matched element in
document order, one record keyed on the non-empty `src`-or-`data-src`
URL, absolutised; `alt` defaulting to the empty string; `width` and
`height` null when absent or empty. -/
def imagesSpec (doc : Doc) (selector baseUrl : String) : List ImageRecord :=
  (doc selector).filterMap (fun el =>
    (imageUrlSpec el).map (fun u =>
      { url := absolutize baseUrl u
      , alt := (attrNonEmpty el "alt").getD ""
      , width := attrNonEmpty el "width"
      , height := attrNonEmpty el "height" }))

/-- Spec-side description of `extractLinks`: per matched element in
document order, one record keyed on a present non-empty `href`,
absolutised, with the trimmed text of the element. -/
def linksSpec (doc : Doc) (selector baseUrl : String) : List LinkRecord :=
  (doc selector).filterMap (fun el =>
    (attrNonEmpty el "href").map (fun u =>
      { url := absolutize baseUrl u, text := jsTrim el.textContent }))

/-- Image records with the raw (unresolved) URLs, describing the claimed
behaviour when no base URL is supplied. -/
def imagesNoBase (doc : Doc) (selector : String) : List ImageRecord :=
  (doc selector).filterMap (fun el =>
    (imageUrlSpec el).map (fun u =>
      { url := u
      , alt := (attrNonEmpty el "alt").getD ""
      , width := attrNonEmpty el "width"
      , height := attrNonEmpty el "height" }))

/-- Link records with the raw (unresolved) URLs. -/
def linksNoBase (doc : Doc) (selector : String) : List LinkRecord :=
  (doc selector).filterMap (fun el =>
    (attrNonEmpty el "href").map (fun u =>
      { url := u, text := jsTrim el.textContent }))

/-- Syntactic test that a mapping field takes one of the two assignment
branches of `extractStructuredData`: a bare string always does, an object
only when its `type` tag is truthy. -/
def fieldAssigned : FieldSpec → Bool
  | .bare _ => true
  | .obj _ ty _ => truthy ty

/-- Value a field receives when its selector matches nothing: empty string
for bare strings and the `text`/`default` modes, `null` for `html`,
`undefined` for `attr`, the empty list for `list`. -/
def emptyValueFor : FieldSpec → JSValue
  | .bare _ => JSValue.vstr ""
  | .obj _ ty _ =>
    let t := ty.getD ""
    if t == "html" then JSValue.vnull
    else if t == "attr" then JSValue.vundef
    else if t == "list" then JSValue.vlist []
    else JSValue.vstr ""

/-! Concrete fixtures used by witnesses and counterexamples. -/

/-- Document with no element matching any selector. -/
def emptyDoc : Doc := fun _ => []

/-- Document answering one fixed selector with a fixed node-set. -/
def docOf (s : String) (els : List Element) : Doc :=
  fun q => if q = s then els else []

/-- An `h1` element with text `T`. -/
def h1El : Element := { attribs := [], textContent := "T", innerHtml := "T" }

/-- Document with one `h1` element. -/
def h1Doc : Doc := docOf "h1" [h1El]

/-- An anchor with `href="x"` and text `y`. -/
def aXEl : Element := { attribs := [("href", "x")], textContent := "y", innerHtml := "y" }

/-- Document with one anchor carrying `href="x"`. -/
def aXDoc : Doc := docOf "a" [aXEl]

/-- Example image element from the spec: `<img src="/a.png" alt="x">`. -/
def imgAEl : Element := { attribs := [("src", "/a.png"), ("alt", "x")], textContent := "", innerHtml := "" }

/-- Document with the example image from the spec. -/
def imgADoc : Doc := docOf "img" [imgAEl]

/-- An image with an empty `src` and a root-relative `data-src`. -/
def imgEmptySrcEl : Element :=
  { attribs := [("src", ""), ("data-src", "/b.png")], textContent := "", innerHtml := "" }

/-- Document with the empty-`src` image. -/
def imgEmptySrcDoc : Doc := docOf "img" [imgEmptySrcEl]

/-- An image with `data-src` only, matching `imgEmptySrcEl` elsewhere. -/
def imgNoSrcEl : Element :=
  { attribs := [("data-src", "/b.png")], textContent := "", innerHtml := "" }

/-- Example anchor from the spec: `<a href="/p">Hi</a>`. -/
def aPEl : Element := { attribs := [("href", "/p")], textContent := "Hi", innerHtml := "Hi" }

/-- Document with the example anchor from the spec. -/
def aPDoc : Doc := docOf "a" [aPEl]

/-- An anchor whose `href` attribute is present but empty. -/
def aEmptyHrefEl : Element := { attribs := [("href", "")], textContent := "Hi", innerHtml := "Hi" }

/-- Document with the empty-`href` anchor. -/
def aEmptyHrefDoc : Doc := docOf "a" [aEmptyHrefEl]

/-! Helper lemmas. -/

theorem textOfSet_nil : textOfSet [] = "" := rfl

theorem jsTrim_empty : jsTrim "" = "" := rfl

theorem resolveUrl_ne_empty {u : String} (b : String) (h : u ≠ "") :
    resolveUrl u b ≠ "" := by
  intro he
  have hd : (resolveUrl u b).data = [] := by rw [he]
  rw [resolveUrl, String.data_append] at hd
  have hu : u.data = [] := (List.append_eq_nil.mp hd).2
  exact h (String.ext (by simpa using hu))

theorem attrNonEmpty_eq (el : Element) (n : String) :
    attrNonEmpty el n = jsOrNull (getAttr el n) := by
  unfold attrNonEmpty jsOrNull truthy
  cases getAttr el n with
  | none => rfl
  | some v => by_cases hv : v = "" <;> simp [hv]

theorem jsOrEmpty_eq (a : Option String) : jsOrEmpty a = (jsOrNull a).getD "" := by
  unfold jsOrEmpty jsOrNull
  cases a with
  | none => rfl
  | some v => by_cases hv : v = "" <;> simp [truthy, hv]

theorem jsOrNull_jsOr (a b : Option String) :
    jsOrNull (jsOr a b) =
      (match jsOrNull a with
       | some u => some u
       | none => jsOrNull b) := by
  cases a with
  | none => simp [jsOr, jsOrNull, truthy]
  | some v =>
    by_cases hv : v = "" <;> simp [jsOr, jsOrNull, truthy, hv]

theorem imageUrlSpec_eq (el : Element) :
    imageUrlSpec el = jsOrNull (jsOr (getAttr el "src") (getAttr el "data-src")) := by
  rw [imageUrlSpec, attrNonEmpty_eq, attrNonEmpty_eq, jsOrNull_jsOr]

theorem imageEach_eq_spec (baseUrl : String) (el : Element) :
    imageEach baseUrl el = (imageUrlSpec el).map (fun u =>
      { url := absolutize baseUrl u
      , alt := (attrNonEmpty el "alt").getD ""
      , width := attrNonEmpty el "width"
      , height := attrNonEmpty el "height" }) := by
  rw [imageUrlSpec_eq, attrNonEmpty_eq, attrNonEmpty_eq, attrNonEmpty_eq, ← jsOrEmpty_eq]
  unfold imageEach
  generalize jsOr (getAttr el "src") (getAttr el "data-src") = r
  cases r with
  | none => rfl
  | some u =>
    by_cases hu : u = ""
    · subst hu
      simp [jsOrNull, truthy]
    · have hut : (u != "") = true := by simpa using hu
      by_cases hb : baseUrl = ""
      · subst hb
        simp [hut, jsOrNull, truthy, hu, absolutize]
      · have hbt : (baseUrl != "") = true := by simpa using hb
        cases hl : leadsWith ['/'] u.data with
        | false => simp [hut, hbt, hl, jsOrNull, truthy, hu, absolutize, hb]
        | true =>
          have hr : (resolveUrl u baseUrl != "") = true := by
            simpa using resolveUrl_ne_empty baseUrl hu
          simp [hut, hbt, hl, hr, jsOrNull, truthy, hu, absolutize, hb]

theorem linkEach_eq_spec (baseUrl : String) (el : Element) :
    linkEach baseUrl el = (attrNonEmpty el "href").map (fun u =>
      { url := absolutize baseUrl u, text := jsTrim el.textContent }) := by
  rw [attrNonEmpty_eq]
  unfold linkEach
  cases hhr : getAttr el "href" with
  | none => rfl
  | some u =>
    by_cases hu : u = ""
    · subst hu
      simp [jsOrNull, truthy]
    · have hut : (u != "") = true := by simpa using hu
      by_cases hb : baseUrl = ""
      · subst hb
        simp [hut, jsOrNull, truthy, hu, absolutize]
      · have hbt : (baseUrl != "") = true := by simpa using hb
        cases hl : leadsWith ['/'] u.data with
        | false => simp [hut, hbt, hl, jsOrNull, truthy, hu, absolutize, hb]
        | true =>
          have hr : (resolveUrl u baseUrl != "") = true := by
            simpa using resolveUrl_ne_empty baseUrl hu
          simp [hut, hbt, hl, hr, jsOrNull, truthy, hu, absolutize, hb]

theorem extractImages_eq_spec (doc : Doc) (selector baseUrl : String) :
    extractImages doc selector baseUrl = imagesSpec doc selector baseUrl := by
  unfold extractImages imagesSpec
  exact congrArg (fun f => List.filterMap f (doc selector))
    (funext (imageEach_eq_spec baseUrl))

theorem extractLinks_eq_spec (doc : Doc) (selector baseUrl : String) :
    extractLinks doc selector baseUrl = linksSpec doc selector baseUrl := by
  unfold extractLinks linksSpec
  exact congrArg (fun f => List.filterMap f (doc selector))
    (funext (linkEach_eq_spec baseUrl))

theorem absolutize_empty_base (u : String) : absolutize "" u = u := rfl

theorem imagesSpec_empty_base (doc : Doc) (selector : String) :
    imagesSpec doc selector "" = imagesNoBase doc selector := rfl

theorem linksSpec_empty_base (doc : Doc) (selector : String) :
    linksSpec doc selector "" = linksNoBase doc selector := rfl

theorem fieldValue_some (doc : Doc) {spec : FieldSpec} (h : fieldAssigned spec = true) :
    ∃ v, fieldValue doc spec = some v := by
  cases spec with
  | bare s => exact ⟨_, rfl⟩
  | obj sel ty a =>
    simp only [fieldAssigned] at h
    exact ⟨modeValue doc sel (ty.getD "") a, by simp [fieldValue, h]⟩

theorem keys_preserved (doc : Doc) (mapping : List (String × FieldSpec))
    (h : ∀ p ∈ mapping, fieldAssigned p.2 = true) :
    (extractStructuredData doc mapping).map Prod.fst = mapping.map Prod.fst := by
  induction mapping with
  | nil => rfl
  | cons p rest ih =>
    obtain ⟨v, hv⟩ := fieldValue_some doc (h p (List.mem_cons_self p rest))
    have hrest := ih (fun q hq => h q (List.mem_cons_of_mem p hq))
    simp only [extractStructuredData, List.filterMap_cons, hv, Option.map_some,
      List.map_cons] at hrest ⊢
    exact congrArg (fun l => p.1 :: l) hrest

theorem zero_match_value (doc : Doc) {spec : FieldSpec} (h : fieldAssigned spec = true)
    (hz : doc spec.selectorOf = []) : fieldValue doc spec = some (emptyValueFor spec) := by
  cases spec with
  | bare s =>
    simp only [FieldSpec.selectorOf] at hz
    simp [fieldValue, emptyValueFor, hz, textOfSet_nil, jsTrim_empty]
  | obj sel ty a =>
    simp only [fieldAssigned] at h
    cases ty with
    | none => simp [truthy] at h
    | some t =>
      simp only [FieldSpec.selectorOf] at hz
      simp only [fieldValue, h, if_true, Option.getD_some, Option.some.injEq]
      by_cases h1 : t = "text"
      · simp [modeValue, emptyValueFor, h1, hz, textOfSet_nil, jsTrim_empty]
      · by_cases h2 : t = "html"
        · simp [modeValue, emptyValueFor, h2, hz, htmlOfSet]
        · by_cases h3 : t = "attr"
          · simp [modeValue, emptyValueFor, h3, hz, attrOfSet]
          · by_cases h4 : t = "list"
            · simp [modeValue, emptyValueFor, h4, hz]
            · simp [modeValue, emptyValueFor, h1, h2, h3, h4, hz, textOfSet_nil, jsTrim_empty]

theorem attrNonEmpty_ne_empty {el : Element} {n u : String}
    (h : attrNonEmpty el n = some u) : u ≠ "" := by
  unfold attrNonEmpty at h
  cases hg : getAttr el n with
  | none => rw [hg] at h; exact absurd h (by simp)
  | some v =>
    rw [hg] at h
    by_cases hv : v = "" <;> simp [hv] at h
    exact h ▸ hv

theorem imageUrlSpec_ne_empty {el : Element} {u : String}
    (h : imageUrlSpec el = some u) : u ≠ "" := by
  unfold imageUrlSpec at h
  cases hs : attrNonEmpty el "src" with
  | none => rw [hs] at h; exact attrNonEmpty_ne_empty h
  | some v =>
    rw [hs] at h
    obtain rfl : v = u := by simpa using h
    exact attrNonEmpty_ne_empty hs

theorem absolutize_ne_empty {u : String} (b : String) (h : u ≠ "") :
    absolutize b u ≠ "" := by
  unfold absolutize
  by_cases hb : b = ""
  · simpa [hb] using h
  · rw [if_neg hb]
    cases hl : leadsWith ['/'] u.data with
    | false => simpa using h
    | true => simpa using resolveUrl_ne_empty b h

/-- A mapping exercising all four assignment modes, used as a witness
input. -/
def cMapping : List (String × FieldSpec) :=
  [("title", FieldSpec.bare "h1"),
   ("tags", FieldSpec.obj ".tag" (some "list") none),
   ("body", FieldSpec.obj "article" (some "html") none),
   ("lang", FieldSpec.obj "html" (some "attr") (some "lang"))]

/-- Initial client state built by the constructor with no options. -/
def st0 : ClientState := createService none (fun _ => none) none

/-- A one-entry header object used as a witness argument. -/
def hs0 : Headers := fun n => if n == "X-Test" then some "1" else none

/-! Claims. -/

/-- C1, counterexample: a field in `html` mode whose selector matches no
element receives `null`, not the empty string the claim requires. -/
theorem C1_counterexample :
    extractStructuredData emptyDoc [("k", FieldSpec.obj "p" (some "html") none)]
      = [("k", JSValue.vnull)] ∧ JSValue.vnull ≠ JSValue.vstr "" := by
  exact ⟨by decide, by decide⟩

/-- C1 (amended): for every mapping whose fields all take an assignment
branch (a bare string, or an object with a truthy `type` tag), the result
has exactly the key sequence of the mapping and no error is raised; a field
whose selector matches nothing receives the empty string in `text`,
bare-string and unknown modes, `null` in `html` mode, `undefined` in
`attr` mode, and the empty list in `list` mode. -/
theorem C1_keyset_and_zero_match (doc : Doc) (mapping : List (String × FieldSpec))
    (h : ∀ p ∈ mapping, fieldAssigned p.2 = true) :
    (extractStructuredData doc mapping).map Prod.fst = mapping.map Prod.fst ∧
    ∀ p ∈ mapping, doc p.2.selectorOf = [] →
      fieldValue doc p.2 = some (emptyValueFor p.2) :=
  ⟨keys_preserved doc mapping h, fun p hp hz => zero_match_value doc (h p hp) hz⟩

/-- Witness for C1 at a concrete mapping and the empty document. -/
theorem C1_witness :
    ((extractStructuredData emptyDoc cMapping).map Prod.fst = cMapping.map Prod.fst ∧
     ∀ p ∈ cMapping, emptyDoc p.2.selectorOf = [] →
       fieldValue emptyDoc p.2 = some (emptyValueFor p.2)) :=
  C1_keyset_and_zero_match emptyDoc cMapping (by decide)

/-- C2, counterexample: a field object with a selector but no `type` tag
is silently dropped from the result, not treated as `text` mode. -/
theorem C2_counterexample :
    extractStructuredData h1Doc [("k", FieldSpec.obj "h1" none none)] = [] ∧
    ([] : List (String × JSValue)) ≠ [("k", JSValue.vstr "T")] := by
  exact ⟨by decide, by decide⟩

/-- C2 (amended): a field object whose `type` tag is missing never fires
either assignment branch, so its key is silently dropped (no error); only
a field whose `type` tag is present, non-empty and unrecognised falls back
to `text`-mode extraction. -/
theorem C2_missing_mode (doc : Doc) (key sel : String) (a : Option String) (t : String)
    (ht : t ≠ "") (h1 : t ≠ "text") (h2 : t ≠ "html") (h3 : t ≠ "attr") (h4 : t ≠ "list") :
    extractStructuredData doc [(key, FieldSpec.obj sel none a)] = [] ∧
    extractStructuredData doc [(key, FieldSpec.obj sel (some t) a)]
      = [(key, JSValue.vstr (jsTrim (textOfSet (doc sel))))] := by
  constructor
  · rfl
  · simp [extractStructuredData, fieldValue, truthy, modeValue, ht, h1, h2, h3, h4]

/-- Witness for C2 at a concrete document and the misspelled tag txet. -/
theorem C2_witness :
    (extractStructuredData h1Doc [("k", FieldSpec.obj "h1" none none)] = [] ∧
     extractStructuredData h1Doc [("k", FieldSpec.obj "h1" (some "txet") none)]
       = [("k", JSValue.vstr (jsTrim (textOfSet (h1Doc "h1"))))]) :=
  C2_missing_mode h1Doc "k" "h1" none "txet"
    (by decide) (by decide) (by decide) (by decide) (by decide)

/-- C3, counterexample: a field in `attr` mode with no attribute name does
not fail; the query method `.attr(undefined)` returns the whole attribute
object of the first matched element, which is stored as the value of the field. -/
theorem C3_counterexample :
    extractStructuredData aXDoc [("k", FieldSpec.obj "a" (some "attr") none)]
      = [("k", JSValue.vattrs [("href", "x")])] ∧
    JSValue.vattrs [("href", "x")] ≠ JSValue.vundef := by
  exact ⟨by decide, by decide⟩

/-- C3 (amended): `attr` mode with no attribute name raises no
configuration error; the field receives the whole attribute object of the
first matched element, or `undefined` when the selector matches nothing. -/
theorem C3_attr_no_name (doc : Doc) (key sel : String) :
    extractStructuredData doc [(key, FieldSpec.obj sel (some "attr") none)]
      = [(key, match doc sel with
          | [] => JSValue.vundef
          | el :: _ => JSValue.vattrs el.attribs)] := by
  cases hds : doc sel with
  | nil => simp [extractStructuredData, fieldValue, truthy, modeValue, attrOfSet, hds]
  | cons el rest => simp [extractStructuredData, fieldValue, truthy, modeValue, attrOfSet, hds]

/-- C4: a selector matching zero elements yields the empty string from
`extractText` and empty sequences from `extractImages` and `extractLinks`,
with no error. -/
theorem C4_zero_match (doc : Doc) (sel baseUrl : String) (h : doc sel = []) :
    extractText doc sel = "" ∧ extractImages doc sel baseUrl = [] ∧
    extractLinks doc sel baseUrl = [] := by
  refine ⟨?_, ?_, ?_⟩ <;>
    simp [extractText, extractImages, extractLinks, h, textOfSet_nil, jsTrim_empty]

/-- Witness for C4 on the empty document. -/
theorem C4_witness :
    extractText emptyDoc "p" = "" ∧ extractImages emptyDoc "p" "" = [] ∧
    extractLinks emptyDoc "p" "" = [] :=
  C4_zero_match emptyDoc "p" "" rfl

/-- C5, counterexample: an image whose `src` attribute is present but
empty does not keep that empty `src` as its URL; the code falls back to
`data-src`, so the reading of absent in the claim is violated. -/
theorem C5_counterexample :
    extractImages imgEmptySrcDoc "img" "https://h.example/"
      = [{ url := "https://h.example/b.png", alt := "", width := none, height := none }] ∧
    extractImages imgEmptySrcDoc "img" "https://h.example/"
      ≠ [{ url := "", alt := "", width := none, height := none }] := by
  exact ⟨by decide, by decide⟩

/-- C5 (amended): `extractImages` produces one record per matched element
in document order, taking the URL from `src` and falling back to
`data-src` when `src` is absent or empty, skipping elements whose both
attributes are absent or empty, resolving root-relative URLs against a
non-empty base URL, defaulting `alt` to the empty string, and storing
`null` for `width`/`height` when absent or empty; on the example
image it yields exactly the expected record. -/
theorem C5_images (doc : Doc) (selector baseUrl : String) :
    extractImages doc selector baseUrl = imagesSpec doc selector baseUrl ∧
    extractImages imgADoc "img" "https://h.example/"
      = [{ url := "https://h.example/a.png", alt := "x", width := none, height := none }] :=
  ⟨extractImages_eq_spec doc selector baseUrl, by decide⟩

/-- C6, counterexample: an anchor whose `href` attribute is present but
empty is skipped entirely, while the claim only allows skipping elements
without an `href` attribute. -/
theorem C6_counterexample :
    extractLinks aEmptyHrefDoc "a" "" = [] ∧
    ([] : List LinkRecord) ≠ [{ url := "", text := "Hi" }] := by
  exact ⟨by decide, by decide⟩

/-- C6 (amended): `extractLinks` produces one record per matched element
in document order, skipping elements whose `href` is absent or empty,
resolving root-relative URLs against a non-empty base URL, with the
trimmed text of the element; on the example anchor it yields exactly the
expected record. -/
theorem C6_links (doc : Doc) (selector baseUrl : String) :
    extractLinks doc selector baseUrl = linksSpec doc selector baseUrl ∧
    extractLinks aPDoc "a" "https://h.example"
      = [{ url := "https://h.example/p", text := "Hi" }] :=
  ⟨extractLinks_eq_spec doc selector baseUrl, by decide⟩

/-- C7: with an empty base URL, `extractImages` and `extractLinks` pass
every URL (including root-relative ones) through unchanged; no resolution
is attempted. -/
theorem C7_no_base (doc : Doc) (selector : String) :
    extractImages doc selector "" = imagesNoBase doc selector ∧
    extractLinks doc selector "" = linksNoBase doc selector := by
  refine ⟨?_, ?_⟩
  · rw [extractImages_eq_spec, imagesSpec_empty_base]
  · rw [extractLinks_eq_spec, linksSpec_empty_base]

/-- C8: a bare-string field specification is observationally equivalent to
an object specification with the same selector and `text` mode, both as a
single field value and inside a mapping. -/
theorem C8_bare_equiv (doc : Doc) (key s : String) (a : Option String) :
    fieldValue doc (FieldSpec.bare s) = fieldValue doc (FieldSpec.obj s (some "text") a) ∧
    extractStructuredData doc [(key, FieldSpec.bare s)]
      = extractStructuredData doc [(key, FieldSpec.obj s (some "text") a)] := by
  have h : fieldValue doc (FieldSpec.bare s)
      = fieldValue doc (FieldSpec.obj s (some "text") a) := by
    simp [fieldValue, truthy, modeValue]
  exact ⟨h, by simp only [extractStructuredData, List.filterMap_cons, List.filterMap_nil, h]⟩

/-- C9: `setHeaders` merges into the existing default headers, keeping
every header the argument does not mention (in particular the default
User-Agent); `setCookies` changes exactly the Cookie header; neither
mutator touches the stored timeout or auth configuration. -/
theorem C9_header_merge (st : ClientState) (hs : Headers) (c k : String)
    (hk : hs k = none) (hc : k ≠ "Cookie") (hua : hs "User-Agent" = none) :
    (setHeaders st hs).headers k = st.headers k ∧
    (setHeaders (createService none (fun _ => none) none) hs).headers "User-Agent"
      = some defaultUserAgent ∧
    (setCookies st c).headers "Cookie" = some c ∧
    (setCookies st c).headers k = st.headers k ∧
    (setHeaders st hs).timeout = st.timeout ∧ (setHeaders st hs).auth = st.auth ∧
    (setCookies st c).timeout = st.timeout ∧ (setCookies st c).auth = st.auth := by
  refine ⟨?_, ?_, ?_, ?_, rfl, rfl, rfl, rfl⟩
  · simp [setHeaders, mergeHeaders, hk]
  · simp [setHeaders, mergeHeaders, createService, hua]
  · simp [setCookies, setHeaders, mergeHeaders]
  · simp [setCookies, setHeaders, mergeHeaders, hc]

/-- Witness for C9 at a fresh client, a one-entry header object, a cookie
string and the User-Agent header name. -/
theorem C9_witness :
    ((setHeaders st0 hs0).headers "User-Agent" = st0.headers "User-Agent" ∧
     (setHeaders (createService none (fun _ => none) none) hs0).headers "User-Agent"
       = some defaultUserAgent ∧
     (setCookies st0 "a=b").headers "Cookie" = some "a=b" ∧
     (setCookies st0 "a=b").headers "User-Agent" = st0.headers "User-Agent" ∧
     (setHeaders st0 hs0).timeout = st0.timeout ∧ (setHeaders st0 hs0).auth = st0.auth ∧
     (setCookies st0 "a=b").timeout = st0.timeout ∧ (setCookies st0 "a=b").auth = st0.auth) :=
  C9_header_merge st0 hs0 "a=b" "User-Agent" (by decide) (by decide) (by decide)

/-- C10: an image element with an empty `src` behaves exactly like one
with `src` absent (falling back to `data-src`); an element whose `src` and
`data-src` are both absent or empty is skipped; and no produced record
ever carries an empty URL. -/
theorem C10_empty_src (baseUrl : String) (e1 e2 : Element)
    (h1 : getAttr e1 "src" = some "") (h2 : getAttr e2 "src" = none)
    (hd : getAttr e1 "data-src" = getAttr e2 "data-src")
    (ha : getAttr e1 "alt" = getAttr e2 "alt")
    (hw : getAttr e1 "width" = getAttr e2 "width")
    (hh : getAttr e1 "height" = getAttr e2 "height") :
    imageEach baseUrl e1 = imageEach baseUrl e2 ∧
    ((getAttr e1 "data-src" = none ∨ getAttr e1 "data-src" = some "") →
      imageEach baseUrl e1 = none) ∧
    ∀ (doc : Doc) (sel : String) (r : ImageRecord),
      r ∈ extractImages doc sel baseUrl → r.url ≠ "" := by
  refine ⟨?_, ?_, ?_⟩
  · simp [imageEach, h1, h2, hd, ha, hw, hh, jsOr, truthy]
  · intro hds
    rw [imageEach_eq_spec]
    rcases hds with hds | hds <;>
      simp [imageUrlSpec, attrNonEmpty, h1, hds]
  · intro doc sel r hr
    rw [extractImages_eq_spec] at hr
    unfold imagesSpec at hr
    obtain ⟨el, hel, hmap⟩ := List.mem_filterMap.mp hr
    obtain ⟨u, hu, heq⟩ := Option.map_eq_some'.mp hmap
    have hne := imageUrlSpec_ne_empty hu
    have : r.url = absolutize baseUrl u := by rw [← heq]
    rw [this]
    exact absolutize_ne_empty baseUrl hne

/-- Witness for C10 on the concrete empty-`src` and no-`src` images. -/
theorem C10_witness :
    (imageEach "" imgEmptySrcEl = imageEach "" imgNoSrcEl ∧
     ((getAttr imgEmptySrcEl "data-src" = none ∨
       getAttr imgEmptySrcEl "data-src" = some "") →
       imageEach "" imgEmptySrcEl = none) ∧
     ∀ (doc : Doc) (sel : String) (r : ImageRecord),
       r ∈ extractImages doc sel "" → r.url ≠ "") :=
  C10_empty_src "" imgEmptySrcEl imgNoSrcEl
    (by decide) (by decide) (by decide) (by decide) (by decide) (by decide)

end WebScraper







